import Mathlib

/-!
Verification development for the `elapsed` Go package (`time.go`).

The package converts an elapsed duration into a human-readable localized
phrase ("3 days ago", "il y a 3 jours", ...).  Its logic is:
  * a translation-ID enum `TrID`,
  * a process-wide locale table `i18n : Translation` (Go: `map[string]Terms`),
  * `AddTranslation` registering a new locale table,
  * `LocalTime` / `Time` classifying the elapsed duration into a bucket and
    rendering the phrase via `tr` / `changeIfSing` and `fmt.Sprintf`.

Embedding notes:
  * Go maps are embedded as association lists with a first-match lookup
    (`lookupL`).  Key sets of the literal tables are duplicate-free, so the
    ordering of entries is irrelevant.
  * Durations (`time.Duration`) are integer nanosecond counts; we embed the
    elapsed duration `time.Since(t)` as an `Int` of nanoseconds.  The Go code
    compares float64 seconds (`diff.Seconds()`) against integer thresholds and
    truncates float64 minute/hour/day counts to `int`; for the magnitudes
    involved (`sec < 2^53`) these float operations are exact at every integer
    threshold, so `s < k ↔ ns < k·10^9` and `int(s/86400) = ns / (86400·10^9)`,
    and the embedding uses exact natural-number division.
  * `int(math.Ceil(float64(d) / 7))` is exact ceiling division for the `int`
    day counts involved, embedded as `(d + 6) / 7` on `Nat` (same for 30, 365).
  * A Go map read of a missing key yields the zero value: `Option.getD` with
    default `""` (for `Terms`) or `[]` (for `Translation`).
  * `strings.TrimSpace` trims Unicode white space; `trimSpace` below trims the
    ASCII white-space characters, which coincides with Go on all inputs whose
    white space is ASCII (the Unicode-only space classes are not exercised by
    any claim).
-/

namespace Elapsed

/-- TrID is the ID of a translation (Go `type TrID int` with its iota
constants NotYet, JustNow, Minute, Minutes, Hour, Hours, Yesterday, Day,
Days, Week, Weeks, Month, Months, Year, Years). -/
inductive TrID where
  | NotYet
  | JustNow
  | Minute
  | Minutes
  | Hour
  | Hours
  | Yesterday
  | Day
  | Days
  | Week
  | Weeks
  | Month
  | Months
  | Year
  | Years
deriving DecidableEq, Repr, Fintype

open TrID

/-- Terms lists all translations by identifier (Go `map[TrID]string`). -/
abbrev Terms : Type := List (TrID × String)

/-- Translation lists all translations by language code
(Go `map[string]Terms`). -/
abbrev Translation : Type := List (String × Terms)

/-- First-match lookup in an association list, the embedding of a Go map
read (`m[k]` together with its `ok` flag). -/
def lookupL {α β : Type} [DecidableEq α] (l : List (α × β)) (k : α) : Option β :=
  match l with
  | [] => none
  | p :: rest => if p.1 = k then some p.2 else lookupL rest k

/-- German terms (`i18n["de"]`). -/
def deTerms : Terms :=
  [(NotYet, "noch nicht"),
   (JustNow, "im Moment"),
   (Minute, "vor %d Minute"),
   (Minutes, "vor %d Minuten"),
   (Hour, "vor %d Stunde"),
   (Hours, "vor %d Stunden"),
   (Yesterday, "gestern"),
   (Day, "vor %d Tag"),
   (Days, "vor %d Tagen"),
   (Week, "vor %d Woche"),
   (Weeks, "vor %d Wochen"),
   (Month, "vor %d Monat"),
   (Months, "vor %d Monaten"),
   (Year, "vor %d Jahr"),
   (Years, "vor %d Jahren")]

/-- English terms (`i18n["en"]`), the reference locale. -/
def enTerms : Terms :=
  [(NotYet, "not yet"),
   (JustNow, "just now"),
   (Minute, "%d minute ago"),
   (Minutes, "%d minutes ago"),
   (Hour, "%d hour ago"),
   (Hours, "%d hours ago"),
   (Yesterday, "yesterday"),
   (Day, "%d day ago"),
   (Days, "%d days ago"),
   (Week, "%d week ago"),
   (Weeks, "%d weeks ago"),
   (Month, "%d month ago"),
   (Months, "%d months ago"),
   (Year, "%d year ago"),
   (Years, "%d years ago")]

/-- Spanish terms (`i18n["es"]`). -/
def esTerms : Terms :=
  [(NotYet, "aún no"),
   (JustNow, "al instante"),
   (Minute, "hace %d minuto"),
   (Minutes, "hace %d minutos"),
   (Hour, "hace %d hora"),
   (Hours, "hace %d horas"),
   (Yesterday, "ayer"),
   (Day, "hace %d día"),
   (Days, "hace %d días"),
   (Week, "hace %d semana"),
   (Weeks, "hace %d semanas"),
   (Month, "hace %d mes"),
   (Months, "hace %d meses"),
   (Year, "hace %d año"),
   (Years, "hace %d años")]

/-- French terms (`i18n["fr"]`). -/
def frTerms : Terms :=
  [(NotYet, "pas encore"),
   (JustNow, "à l'instant"),
   (Minute, "il y a %d minute"),
   (Minutes, "il y a %d minutes"),
   (Hour, "il y a %d heure"),
   (Hours, "il y a %d heures"),
   (Yesterday, "hier"),
   (Day, "il y a %d jour"),
   (Days, "il y a %d jours"),
   (Week, "il y a %d semaine"),
   (Weeks, "il y a %d semaines"),
   (Month, "il y a %d mois"),
   (Months, "il y a %d mois"),
   (Year, "il y a %d an"),
   (Years, "il y a %d ans")]

/-- Italian terms (`i18n["it"]`). -/
def itTerms : Terms :=
  [(NotYet, "non ancora"),
   (JustNow, "al momento"),
   (Minute, "%d minuto fa"),
   (Minutes, "%d minuti fa"),
   (Hour, "%d ora fa"),
   (Hours, "%d ore fa"),
   (Yesterday, "ieri"),
   (Day, "da %d giorno"),
   (Days, "da %d giorni"),
   (Week, "da %d settimana"),
   (Weeks, "da %d settimane"),
   (Month, "da %d mese"),
   (Months, "da %d mesi"),
   (Year, "da %d anno"),
   (Years, "da %d anni")]

/-- Dutch terms (`i18n["nl"]`). -/
def nlTerms : Terms :=
  [(NotYet, "nog niet"),
   (JustNow, "dit moment"),
   (Minute, "%d minuut geleden"),
   (Minutes, "%d minuten geleden"),
   (Hour, "%d uur geleden"),
   (Hours, "%d uren geleden"),
   (Yesterday, "gisteren"),
   (Day, "%d dag geleden"),
   (Days, "%d dagen geleden"),
   (Week, "%d weke geleden"),
   (Weeks, "%d weken geleden"),
   (Month, "%d maand geleden"),
   (Months, "%d maanden geleden"),
   (Year, "%d jaar geleden."),
   (Years, "%d jaar geleden.")]

/-- Polish terms (`i18n["pl"]`). -/
def plTerms : Terms :=
  [(NotYet, "jeszcze nie"),
   (JustNow, "w tej chwili"),
   (Minute, "%d minutę temu"),
   (Minutes, "%d minuty temu"),
   (Hour, "%d godzinę temu"),
   (Hours, "%d godziny temu"),
   (Yesterday, "wczoraj"),
   (Day, "%d dzień temu"),
   (Days, "%d dni temu"),
   (Week, "%d tydzień temu"),
   (Weeks, "%d tygodnie temu"),
   (Month, "%d miesiąc temu"),
   (Months, "%d miesiące temu"),
   (Year, "%d rok temu"),
   (Years, "%d lata temu")]

/-- i18n is the initial map of translations by language code (the Go package
variable `i18n`).  Go map iteration/lookup does not depend on entry order;
the entries are listed in the source order of the literal. -/
def i18n : Translation :=
  [("de", deTerms),
   ("en", enTerms),
   ("es", esTerms),
   ("fr", frTerms),
   ("it", itTerms),
   ("nl", nlTerms),
   ("pl", plTerms)]

/-- The common errors of the package: ErrISOCode ("invalid language code"),
ErrExists ("already exists"), ErrIncomplete ("missing translation"). -/
inductive AddErr where
  | errISOCode
  | errExists
  | errIncomplete
deriving DecidableEq, Repr

/-- ASCII white-space test, the embedding of `unicode.IsSpace` restricted to
ASCII (space, tab, newline, vertical tab, form feed, carriage return). -/
def isSpaceChar (c : Char) : Bool :=
  c = ' ' || c = '\t' || c = '\n' || c = '\x0b' || c = '\x0c' || c = '\r'

/-- Embedding of `strings.TrimSpace`: drop white space from both ends. -/
def trimSpace (s : String) : String :=
  ⟨((s.data.dropWhile isSpaceChar).reverse.dropWhile isSpaceChar).reverse⟩

/-- The keys of the reference table `i18n["en"]` in the current registry
(the range of Go's `for k := range i18n["en"]`; iteration order is
irrelevant because membership of every key is checked). -/
def enKeys (st : Translation) : List TrID :=
  ((lookupL st "en").getD []).map Prod.fst

/-- AddTranslation adds the terms for the given language code (Go
`AddTranslation`).  The Go function mutates the package-level map `i18n` and
returns an error; here the registry is passed and returned explicitly: the
result is the returned error (`none` on success) paired with the registry
state after the call.  The checks mirror the source order: trimmed-empty
code, existing code, completeness against the keys of `i18n["en"]`, then the
map write `i18n[lang] = tr`. -/
def AddTranslation (lang : String) (terms : Terms) (st : Translation) :
    Option AddErr × Translation :=
  if trimSpace lang = "" then (some .errISOCode, st)
  else if (lookupL st (trimSpace lang)).isSome then (some .errExists, st)
  else if (enKeys st).all (fun k => (lookupL terms k).isSome) then
    (none, (trimSpace lang, terms) :: st)
  else (some .errIncomplete, st)

/-- changeIfSing returns the singular translation ID when the magnitude is
exactly 1 (Go `changeIfSing`). -/
def changeIfSing (id : TrID) (nb : Int) : TrID :=
  match id with
  | Minutes => if nb = 1 then Minute else Minutes
  | Hours => if nb = 1 then Hour else Hours
  | Months => if nb = 1 then Month else Months
  | Weeks => if nb = 1 then Week else Weeks
  | Days => if nb = 1 then Day else Days
  | Years => if nb = 1 then Year else Years
  | _ => id

/-- The terms table selected for a language: the registered table, or the
English table as fail over (Go `tr`, lines resolving `ltr`).  A missing
`"en"` entry yields the empty map, like a nil Go map. -/
def resolveTable (lang : String) (st : Translation) : Terms :=
  match lookupL st lang with
  | some t => t
  | none => (lookupL st "en").getD []

/-- The phrase lookup performed by Go's `tr` before the map read defaults:
`ltr[changeIfSing(id, nb)]` as an `Option`. -/
def trOpt (id : TrID) (lang : String) (nb : Int) (st : Translation) :
    Option String :=
  lookupL (resolveTable lang st) (changeIfSing id nb)

/-- tr returns the phrase template for the ID, language and magnitude (Go
`tr`); a missing key yields the zero value `""`. -/
def tr (id : TrID) (lang : String) (nb : Int) (st : Translation) : String :=
  (trOpt id lang nb st).getD ""

/-- Replace the first occurrence of the verb `%d` in the template character
list with the decimal rendering of `n`; characters after the replaced verb
are kept verbatim. -/
def replaceD : List Char → Int → List Char
  | [], _ => []
  | '%' :: 'd' :: rest, n => (toString n).data ++ rest
  | c :: rest, n => c :: replaceD rest n

/-- Embedding of `fmt.Sprintf(template, n)` for the templates of this
package, which contain at most one verb, always `%d`: substitute the first
`%d` with the decimal integer.  (Go's behaviour on a template with no verb
or extra verbs — `%!(EXTRA ...)` / `%!d(MISSING)` noise — is not modelled;
no code path of the package reaches it with the built-in tables.) -/
def sprintf1 (tmpl : String) (n : Int) : String :=
  ⟨replaceD tmpl.data n⟩

/-- Nanoseconds per second (`time.Duration` is an integer nanosecond
count). -/
def nsPerSec : Nat := 1000000000

/-- Nanoseconds per day. -/
def nsPerDay : Nat := 86400 * nsPerSec

/-- The year rule of `LocalTime`'s `default` case:
`nbYear := int(math.Ceil(float64(d) / 365))`. -/
def yearsOf (d : Nat) : TrID × Int :=
  (Years, ((d + 364) / 365 : Nat))

/-- The month rule of `LocalTime`'s `case d < 365` body, reached directly or
by `fallthrough` from the week case: `nbMonth := int(math.Ceil(float64(d) /
30))`, presenting a 12th "month" as a year via `fallthrough` to the default
case. -/
def monthsOrYears (d : Nat) : TrID × Int :=
  if (d + 29) / 30 < 12 then (Months, ((d + 29) / 30 : Nat)) else yearsOf d

/-- The bucket classifier of `LocalTime` for a non-negative elapsed duration
of `ns` nanoseconds: the `switch` on `s := diff.Seconds()` and `d := int(s /
86400)`, returning the translation ID passed to `tr` and the magnitude `nb`
passed to it (`-1` for the magnitude-free buckets JustNow and Yesterday,
exactly as the source passes).  The `fallthrough` chain week → month → year
is embedded by `monthsOrYears` / `yearsOf`. -/
def rawClass (ns : Nat) : TrID × Int :=
  if ns < 60 * nsPerSec then (JustNow, -1)
  else if ns < 3600 * nsPerSec then (Minutes, (ns / (60 * nsPerSec) : Nat))
  else if ns < 86400 * nsPerSec then (Hours, (ns / (3600 * nsPerSec) : Nat))
  else if ns / nsPerDay = 1 then (Yesterday, -1)
  else if ns / nsPerDay < 7 then (Days, (ns / nsPerDay : Nat))
  else if ns / nsPerDay < 31 then
    (if (ns / nsPerDay + 6) / 7 < 4 then
      (Weeks, ((ns / nsPerDay + 6) / 7 : Nat))
    else monthsOrYears (ns / nsPerDay))
  else if ns / nsPerDay < 365 then monthsOrYears (ns / nsPerDay)
  else yearsOf (ns / nsPerDay)

/-- A `time.Time` argument of `LocalTime`, relative to the fixed `now` of
the call: whether `t.IsZero()` holds, and `time.Since(t) = now - t` in
nanoseconds (negative exactly when `time.Now().Before(t)`). -/
structure GoTime where
  isZero : Bool
  sinceNs : Int

/-- The full classification of `LocalTime`: the zero/future guard
(`t.IsZero() || time.Now().Before(t)`), then the bucket classifier. -/
def classify (t : GoTime) : TrID × Int :=
  if t.isZero = true ∨ t.sinceNs < 0 then (NotYet, -1)
  else rawClass t.sinceNs.toNat

/-- Rendering of a classification: the source returns `tr(id, lang, -1)`
verbatim exactly for the three magnitude-free buckets (NotYet, JustNow,
Yesterday), which are exactly the classifications with magnitude `-1`, and
`fmt.Sprintf(tr(id, lang, nb), nb)` for every other branch. -/
def render (p : TrID × Int) (lang : String) (st : Translation) : String :=
  if p.2 < 0 then tr p.1 lang p.2 st
  else sprintf1 (tr p.1 lang p.2 st) p.2

/-- LocalTime returns in a human readable format the elapsed time since the
given datetime using the given ISO 639-1 language code (Go `LocalTime`,
with the registry state passed explicitly). -/
def LocalTime (t : GoTime) (lang : String) (st : Translation) : String :=
  render (classify t) lang st

/-- Time returns in a human readable format the elapsed time since the
given datetime in english (Go `Time`). -/
def Time (t : GoTime) (st : Translation) : String :=
  LocalTime t "en" st

/-- The translation ID whose phrase `LocalTime` looks up and returns:
`changeIfSing` applied to the classification. -/
def usedID (t : GoTime) : TrID :=
  changeIfSing (classify t).1 (classify t).2

/-- A terms table defines every translation ID. -/
def hasAllKeys (tb : Terms) : Prop :=
  ∀ id : TrID, (lookupL tb id).isSome = true

/-- Every registered locale's table defines every translation ID (the
registration-time invariant; the reference table `enTerms` lists all 15
IDs, so "all IDs of the reference table" and "all IDs" coincide). -/
def registryComplete (st : Translation) : Prop :=
  ∀ p ∈ st, hasAllKeys p.2

instance (tb : Terms) : Decidable (hasAllKeys tb) := by
  unfold hasAllKeys; infer_instance

instance (st : Translation) : Decidable (registryComplete st) := by
  unfold registryComplete Translation; infer_instance

/-! Helper lemmas shared by the claim theorems. -/

/-- A successful association-list lookup finds a genuine entry. -/
theorem lookupL_mem {α β : Type} [DecidableEq α] {l : List (α × β)} {k : α}
    {v : β} (h : lookupL l k = some v) : (k, v) ∈ l := by
  induction l with
  | nil => simp [lookupL] at h
  | cons p rest ih =>
    by_cases hp : p.1 = k
    · rw [lookupL, if_pos hp] at h
      obtain ⟨a, b⟩ := p
      obtain rfl : b = v := by injection h
      obtain rfl : a = k := hp
      exact List.mem_cons_self _ _
    · rw [lookupL, if_neg hp] at h
      exact List.mem_cons_of_mem _ (ih h)

/-- An unregistered language resolves to the same table as `"en"`. -/
theorem resolveTable_of_not_found (lang : String) (st : Translation)
    (h : lookupL st lang = none) :
    resolveTable lang st = resolveTable "en" st := by
  unfold resolveTable
  rw [h]
  cases he : lookupL st "en" <;> simp [he]

/-- An `AddTranslation` call that passes all three guards produces the
registry extended with the trimmed code. -/
theorem add_eq_of_ok (lang : String) (terms : Terms) (st : Translation)
    (h1 : ¬ trimSpace lang = "")
    (h2 : ¬ (lookupL st (trimSpace lang)).isSome = true)
    (h3 : (enKeys st).all (fun k => (lookupL terms k).isSome) = true) :
    AddTranslation lang terms st = (none, (trimSpace lang, terms) :: st) := by
  unfold AddTranslation
  rw [if_neg h1, if_neg h2, if_pos h3]

/-- A successful `AddTranslation` call passed all three guards. -/
theorem add_ok_conditions (lang : String) (terms : Terms) (st : Translation)
    (h : (AddTranslation lang terms st).1 = none) :
    ¬ trimSpace lang = "" ∧ ¬ (lookupL st (trimSpace lang)).isSome = true
    ∧ (enKeys st).all (fun k => (lookupL terms k).isSome) = true := by
  unfold AddTranslation at h
  split_ifs at h with h1 h2 h3
  simp_all

/-- A rejected `AddTranslation` call keeps the registry state. -/
theorem add_err_state (lang : String) (terms : Terms) (st : Translation)
    (h : (AddTranslation lang terms st).1.isSome = true) :
    (AddTranslation lang terms st).2 = st := by
  unfold AddTranslation at h ⊢
  split_ifs at h ⊢ <;> simp_all

/-- An `ErrIncomplete` result means the first two guards passed: the
trimmed code is non-empty and not yet registered. -/
theorem add_incomplete_conditions (lang : String) (terms : Terms)
    (st : Translation)
    (h : (AddTranslation lang terms st).1 = some AddErr.errIncomplete) :
    ¬ trimSpace lang = "" ∧ lookupL st (trimSpace lang) = none := by
  unfold AddTranslation at h
  split_ifs at h with h1 h2 h3 <;>
    simp_all [Option.not_isSome_iff_eq_none]

/-- The `Days` branch of the classifier only runs with a day count between
2 and 6: day 0 is caught by the second-scale cases, day 1 by Yesterday. -/
theorem rawClass_days_range (ns : Nat) (h : (rawClass ns).1 = TrID.Days) :
    2 ≤ (rawClass ns).2 ∧ (rawClass ns).2 ≤ 6 := by
  unfold rawClass monthsOrYears yearsOf at h ⊢
  simp only [nsPerDay, nsPerSec] at h ⊢
  split_ifs at h ⊢
  simp_all
  omega

/-- Characterization of when `changeIfSing` yields the singular Day ID:
only for the Days bucket at magnitude 1, or when Day itself is passed. -/
theorem changeIfSing_eq_day_iff (id : TrID) (nb : Int) :
    changeIfSing id nb = Day ↔ (id = Days ∧ nb = 1) ∨ id = Day := by
  cases id <;> by_cases h : nb = 1 <;> simp [changeIfSing, h]

/-- The classifier never outputs the raw ID Day. -/
theorem rawClass_fst_ne_day (ns : Nat) : (rawClass ns).1 ≠ Day := by
  unfold rawClass monthsOrYears yearsOf
  split_ifs <;> simp

/-- The full classification never outputs the raw ID Day. -/
theorem classify_fst_ne_day (t : GoTime) : (classify t).1 ≠ Day := by
  unfold classify
  split_ifs with hz
  · simp
  · exact rawClass_fst_ne_day _

/-- A Days classification at the public interface carries a magnitude
between 2 and 6. -/
theorem classify_days_range (t : GoTime) (h : (classify t).1 = Days) :
    2 ≤ (classify t).2 ∧ (classify t).2 ≤ 6 := by
  unfold classify at h ⊢
  split_ifs at h ⊢ with hz
  exact rawClass_days_range _ h

/-! The claim theorems. -/

/-- C1: for an elapsed time of `d` whole days with `7 ≤ d < 31` (that is,
any elapsed nanosecond count whose day count `ns / nsPerDay` lies in that
range), the classifier computes `weeks = ceil(d/7)`; if `weeks < 4` it
returns the week bucket with magnitude `weeks`, otherwise it falls through
to the month rule `months = ceil(d/30)`, returning the month bucket when
`months < 12` and otherwise falling through to `years = ceil(d/365)`; in
particular 360 elapsed days yield the Years classification with magnitude 1,
rendered with the singular Year phrase. -/
theorem c1_week_month_year_chain :
    (∀ ns : Nat, 7 ≤ ns / nsPerDay → ns / nsPerDay < 31 →
      rawClass ns =
        (if (ns / nsPerDay + 6) / 7 < 4 then
          (TrID.Weeks, (((ns / nsPerDay + 6) / 7 : Nat) : Int))
        else if (ns / nsPerDay + 29) / 30 < 12 then
          (TrID.Months, (((ns / nsPerDay + 29) / 30 : Nat) : Int))
        else (TrID.Years, (((ns / nsPerDay + 364) / 365 : Nat) : Int))))
    ∧ rawClass (360 * nsPerDay) = (TrID.Years, 1)
    ∧ changeIfSing TrID.Years 1 = TrID.Year := by
  refine ⟨?_, by decide, by decide⟩
  intro ns h7 h31
  unfold rawClass monthsOrYears yearsOf
  simp only [nsPerDay, nsPerSec] at h7 h31 ⊢
  rw [if_neg (by omega), if_neg (by omega), if_neg (by omega),
    if_neg (by omega), if_neg (by omega), if_pos h31]

/-- C1 witness: 8 elapsed days classify as 2 weeks through the chain. -/
theorem c1_witness : rawClass (8 * nsPerDay) = (TrID.Weeks, 2) := by
  have h := c1_week_month_year_chain.1 (8 * nsPerDay) (by decide) (by decide)
  rw [h]; decide

/-- C2 counterexample: at exactly 27 elapsed days the classifier does not
return a week bucket at all: `ceil(27/7) = 4` is not `< 4`, so the week case
falls through to the month rule and the result is the Months classification
with magnitude 1. -/
theorem c2_counterexample :
    rawClass (27 * nsPerDay) = (TrID.Months, 1)
    ∧ (rawClass (27 * nsPerDay)).1 ≠ TrID.Weeks := by decide

/-- C2 (amended): for an elapsed time of exactly 27 whole days,
classification returns the Months bucket with magnitude 1 — `ceil(27/7) = 4`
triggers the month fallthrough — rendered with the singular Month phrase,
"1 month ago" in the reference locale; a week presentation with a count
strictly below 4 only occurs for day counts up to 21. -/
theorem c2_amended :
    rawClass (27 * nsPerDay) = (TrID.Months, 1)
    ∧ changeIfSing TrID.Months 1 = TrID.Month
    ∧ LocalTime ⟨false, ((27 * nsPerDay : Nat) : Int)⟩ "en" i18n
        = "1 month ago"
    ∧ (∀ d : Nat, d < 31 → 7 ≤ d →
        ((rawClass (d * nsPerDay)).1 = TrID.Weeks ↔ d ≤ 21)) := by
  refine ⟨by decide, by decide, by decide, by decide⟩

/-- C3: for every timestamp that is the zero time value or strictly after
now (negative elapsed duration), `LocalTime` returns the NotYet phrase of
the selected locale and `Time` the NotYet phrase of the reference locale;
with the built-in registry and the reference locale that phrase is
"not yet". -/
theorem c3_not_yet (t : GoTime) (lang : String) (st : Translation)
    (h : t.isZero = true ∨ t.sinceNs < 0) :
    LocalTime t lang st = (lookupL (resolveTable lang st) TrID.NotYet).getD ""
    ∧ Time t st = (lookupL (resolveTable "en" st) TrID.NotYet).getD ""
    ∧ LocalTime t "en" i18n = "not yet" := by
  have hc : classify t = (TrID.NotYet, -1) := by
    unfold classify
    rw [if_pos h]
  refine ⟨?_, ?_, ?_⟩
  · show render (classify t) lang st = _
    rw [hc]; rfl
  · show render (classify t) "en" st = _
    rw [hc]; rfl
  · show render (classify t) "en" i18n = _
    rw [hc]; rfl

/-- C3 witness: the zero time value in the built-in registry. -/
theorem c3_witness :
    LocalTime ⟨true, 0⟩ "fr" i18n
      = (lookupL (resolveTable "fr" i18n) TrID.NotYet).getD ""
    ∧ Time ⟨true, 0⟩ i18n
      = (lookupL (resolveTable "en" i18n) TrID.NotYet).getD ""
    ∧ LocalTime ⟨true, 0⟩ "en" i18n = "not yet" :=
  c3_not_yet ⟨true, 0⟩ "fr" i18n (Or.inl rfl)

/-- C4: bucket boundaries are exact: elapsed durations below 60 seconds are
JustNow; from exactly 60 seconds up to an hour the classification is the
minute bucket with magnitude `floor(elapsedSeconds/60)` (so magnitude 1 at
exactly 60 s); from exactly 3600 s up to a day the hour bucket with
magnitude `floor(elapsedSeconds/3600)` (magnitude 1 at exactly 3600 s); and
at exactly 86400 s the day count is 1, giving Yesterday. -/
theorem c4_boundaries (ns : Nat) :
    (ns < 60 * nsPerSec → rawClass ns = (TrID.JustNow, -1))
    ∧ (60 * nsPerSec ≤ ns → ns < 3600 * nsPerSec →
        rawClass ns = (TrID.Minutes, ((ns / (60 * nsPerSec) : Nat) : Int)))
    ∧ (3600 * nsPerSec ≤ ns → ns < 86400 * nsPerSec →
        rawClass ns = (TrID.Hours, ((ns / (3600 * nsPerSec) : Nat) : Int)))
    ∧ rawClass (60 * nsPerSec) = (TrID.Minutes, 1)
    ∧ rawClass (3600 * nsPerSec) = (TrID.Hours, 1)
    ∧ rawClass (86400 * nsPerSec) = (TrID.Yesterday, -1) := by
  refine ⟨?_, ?_, ?_, by decide, by decide, by decide⟩
  · intro h
    unfold rawClass
    rw [if_pos h]
  · intro h1 h2
    unfold rawClass
    simp only [nsPerSec] at h1 h2 ⊢
    rw [if_neg (by omega), if_pos h2]
  · intro h1 h2
    unfold rawClass
    simp only [nsPerSec] at h1 h2 ⊢
    rw [if_neg (by omega), if_neg (by omega), if_pos h2]

/-- C4 witness: 90 elapsed seconds are one minute. -/
theorem c4_witness :
    rawClass (90 * nsPerSec)
      = (TrID.Minutes, (((90 * nsPerSec) / (60 * nsPerSec) : Nat) : Int)) :=
  (c4_boundaries (90 * nsPerSec)).2.1 (by decide) (by decide)

/-- C5: for every singular/plural bucket pair, a magnitude equal to 1
selects the singular translation ID and any other magnitude the plural one,
and `tr` resolves exactly the ID so selected in the table of the requested
language. -/
theorem c5_singular_plural (nb : Int) (lang : String) (st : Translation)
    (id : TrID) :
    changeIfSing TrID.Minutes nb
      = (if nb = 1 then TrID.Minute else TrID.Minutes)
    ∧ changeIfSing TrID.Hours nb = (if nb = 1 then TrID.Hour else TrID.Hours)
    ∧ changeIfSing TrID.Days nb = (if nb = 1 then TrID.Day else TrID.Days)
    ∧ changeIfSing TrID.Weeks nb = (if nb = 1 then TrID.Week else TrID.Weeks)
    ∧ changeIfSing TrID.Months nb
      = (if nb = 1 then TrID.Month else TrID.Months)
    ∧ changeIfSing TrID.Years nb = (if nb = 1 then TrID.Year else TrID.Years)
    ∧ tr id lang nb st
      = (lookupL (resolveTable lang st) (changeIfSing id nb)).getD "" :=
  ⟨rfl, rfl, rfl, rfl, rfl, rfl, rfl⟩

/-- C6: for every timestamp and every language code that is not a key of
the registry, `LocalTime` returns exactly the same string as for the
reference locale `"en"`: unknown locales silently fall back. -/
theorem c6_unknown_locale_fallback (t : GoTime) (lang : String)
    (st : Translation) (h : lookupL st lang = none) :
    LocalTime t lang st = LocalTime t "en" st := by
  have hres : resolveTable lang st = resolveTable "en" st :=
    resolveTable_of_not_found lang st h
  unfold LocalTime render tr trOpt
  rw [hres]

/-- C6 witness: the unregistered code `"ru"` at 14 elapsed days. -/
theorem c6_witness :
    lookupL i18n "ru" = none
    ∧ LocalTime ⟨false, ((14 * nsPerDay : Nat) : Int)⟩ "ru" i18n
        = LocalTime ⟨false, ((14 * nsPerDay : Nat) : Int)⟩ "en" i18n :=
  ⟨by decide,
    c6_unknown_locale_fallback ⟨false, ((14 * nsPerDay : Nat) : Int)⟩
      "ru" i18n (by decide)⟩

/-- C7: `AddTranslation` returns the invalid-code error exactly when the
language code trims to empty; otherwise the already-exists error exactly
when the trimmed code is a registry key; otherwise the incomplete error
exactly when the table lacks a translation ID of the reference `"en"`
table; otherwise it succeeds and installs the table under the trimmed code,
immediately visible to lookup. -/
theorem c7_add_translation (lang : String) (terms : Terms)
    (st : Translation) :
    ((AddTranslation lang terms st).1 = some AddErr.errISOCode ↔
      trimSpace lang = "")
    ∧ ((AddTranslation lang terms st).1 = some AddErr.errExists ↔
        (¬ trimSpace lang = ""
          ∧ (lookupL st (trimSpace lang)).isSome = true))
    ∧ ((AddTranslation lang terms st).1 = some AddErr.errIncomplete ↔
        (¬ trimSpace lang = "" ∧ lookupL st (trimSpace lang) = none
          ∧ ¬ ∀ k ∈ enKeys st, (lookupL terms k).isSome = true))
    ∧ (¬ trimSpace lang = "" → lookupL st (trimSpace lang) = none →
        (∀ k ∈ enKeys st, (lookupL terms k).isSome = true) →
        AddTranslation lang terms st = (none, (trimSpace lang, terms) :: st)
        ∧ lookupL (AddTranslation lang terms st).2 (trimSpace lang)
            = some terms) := by
  refine ⟨?_, ?_, ?_, ?_⟩
  · unfold AddTranslation
    split_ifs <;> simp_all
  · unfold AddTranslation
    split_ifs <;> simp_all [Option.not_isSome_iff_eq_none]
  · unfold AddTranslation
    split_ifs with h1 h2 h3 <;>
      simp_all [Option.not_isSome_iff_eq_none, List.all_eq_true]
    intro hn
    rw [hn] at h2
    simp at h2
  · intro h1 h2 h3
    have hok := add_eq_of_ok lang terms st h1
      (by simp [h2]) (List.all_eq_true.2 h3)
    rw [hok]
    exact ⟨rfl, by simp [lookupL]⟩

/-- C7 witness: registering `"ru"` with a full table succeeds and is
immediately visible. -/
theorem c7_witness :
    AddTranslation "ru" enTerms i18n
      = (none, (trimSpace "ru", enTerms) :: i18n)
    ∧ lookupL (AddTranslation "ru" enTerms i18n).2 (trimSpace "ru")
        = some enTerms :=
  (c7_add_translation "ru" enTerms i18n).2.2.2 (by decide) (by decide)
    (by decide)

/-- C8: every failing `AddTranslation` call leaves the registry exactly as
it was; registering the same code a second time yields the already-exists
error with the first registration's table intact; and a table rejected as
incomplete leaves resolution for that code still falling back to the
reference locale over the unchanged registry. -/
theorem c8_registry_unchanged_on_error (lang : String) (t1 t2 : Terms)
    (st : Translation) :
    ((AddTranslation lang t1 st).1.isSome = true →
      (AddTranslation lang t1 st).2 = st)
    ∧ ((AddTranslation lang t1 st).1 = none →
        (AddTranslation lang t2 (AddTranslation lang t1 st).2).1
          = some AddErr.errExists
        ∧ (AddTranslation lang t2 (AddTranslation lang t1 st).2).2
          = (AddTranslation lang t1 st).2
        ∧ lookupL (AddTranslation lang t1 st).2 (trimSpace lang) = some t1)
    ∧ ((AddTranslation lang t1 st).1 = some AddErr.errIncomplete →
        ∀ id nb, tr id (trimSpace lang) nb (AddTranslation lang t1 st).2
          = tr id "en" nb st) := by
  refine ⟨add_err_state lang t1 st, ?_, ?_⟩
  · intro h
    obtain ⟨h1, h2, h3⟩ := add_ok_conditions lang t1 st h
    rw [add_eq_of_ok lang t1 st h1 h2 h3]
    have hfound : lookupL ((trimSpace lang, t1) :: st) (trimSpace lang)
        = some t1 := by simp [lookupL]
    refine ⟨?_, ?_, hfound⟩
    · unfold AddTranslation
      rw [if_neg h1, if_pos (by simp [hfound])]
    · unfold AddTranslation
      rw [if_neg h1, if_pos (by simp [hfound])]
  · intro h id nb
    obtain ⟨h1, h2⟩ := add_incomplete_conditions lang t1 st h
    rw [add_err_state lang t1 st (by rw [h]; rfl)]
    unfold tr trOpt
    rw [resolveTable_of_not_found (trimSpace lang) st h2]

/-- C8 witness: `"ru"` registered twice over the built-in registry. -/
theorem c8_witness :
    (AddTranslation "ru" deTerms ((AddTranslation "ru" enTerms i18n).2)).1
      = some AddErr.errExists
    ∧ (AddTranslation "ru" deTerms ((AddTranslation "ru" enTerms i18n).2)).2
      = (AddTranslation "ru" enTerms i18n).2
    ∧ lookupL (AddTranslation "ru" enTerms i18n).2 (trimSpace "ru")
      = some enTerms :=
  (c8_registry_unchanged_on_error "ru" enTerms deTerms i18n).2.1 (by decide)

/-- C9: every table of the built-in registry defines every translation ID
(and `enTerms` lists all 15 IDs, so "every ID of the reference table" is
"every ID"); the invariant is preserved by every successful
`AddTranslation` call; and under it the phrase lookup performed by `tr`
never misses for any bucket, magnitude and language. -/
theorem c9_registry_invariant :
    registryComplete i18n
    ∧ (∀ lang terms st, (∀ id : TrID, id ∈ enKeys st) →
        registryComplete st → (AddTranslation lang terms st).1 = none →
        registryComplete (AddTranslation lang terms st).2)
    ∧ (∀ st, registryComplete st → (lookupL st "en").isSome = true →
        ∀ id lang nb, (trOpt id lang nb st).isSome = true) := by
  refine ⟨by decide, ?_, ?_⟩
  · intro lang terms st hkeys hc hok
    obtain ⟨h1, h2, h3⟩ := add_ok_conditions lang terms st hok
    rw [add_eq_of_ok lang terms st h1 h2 h3]
    intro p hp
    rcases List.mem_cons.1 hp with rfl | hp
    · intro id
      exact List.all_eq_true.1 h3 id (hkeys id)
    · exact hc p hp
  · intro st hc hen id lang nb
    unfold trOpt resolveTable
    cases hl : lookupL st lang with
    | some tb =>
      exact hc _ (lookupL_mem hl) (changeIfSing id nb)
    | none =>
      obtain ⟨entb, he⟩ := Option.isSome_iff_exists.1 hen
      rw [he]
      exact hc _ (lookupL_mem he) (changeIfSing id nb)

/-- C9 witness: a lookup that would need the singular Day phrase of an
unregistered locale still resolves over the built-in registry. -/
theorem c9_witness : (trOpt TrID.Day "ru" 5 i18n).isSome = true :=
  c9_registry_invariant.2.2 i18n c9_registry_invariant.1 (by decide)
    TrID.Day "ru" 5

/-- C10: the singular Day phrase is unreachable at the public interface:
the translation ID whose phrase `LocalTime` looks up (`usedID`, to which
`LocalTime` evaluates by definition, third conjunct) is never Day for any
timestamp, because a day count of exactly 1 is captured by Yesterday before
the Days case, so the Days classification only carries a magnitude between
2 and 6 and `changeIfSing Days` never returns Day there. -/
theorem c10_day_phrase_unreachable :
    (∀ t : GoTime, usedID t ≠ TrID.Day)
    ∧ (∀ t : GoTime, (classify t).1 = TrID.Days →
        2 ≤ (classify t).2 ∧ (classify t).2 ≤ 6)
    ∧ (∀ (t : GoTime) (lang : String) (st : Translation),
        LocalTime t lang st =
          (if (classify t).2 < 0 then
            (lookupL (resolveTable lang st) (usedID t)).getD ""
          else sprintf1 ((lookupL (resolveTable lang st) (usedID t)).getD "")
            (classify t).2)) := by
  refine ⟨?_, classify_days_range, fun t lang st => rfl⟩
  intro t
  have h2 : ¬((classify t).1 = Days ∧ (classify t).2 = 1) := by
    rintro ⟨ha, hb⟩
    have hr := classify_days_range t ha
    omega
  unfold usedID
  rw [ne_eq, changeIfSing_eq_day_iff]
  exact not_or.2 ⟨h2, classify_fst_ne_day t⟩

/-- C10 witness: 3 elapsed days classify as Days with magnitude 3. -/
theorem c10_witness :
    2 ≤ (classify ⟨false, ((3 * nsPerDay : Nat) : Int)⟩).2
    ∧ (classify ⟨false, ((3 * nsPerDay : Nat) : Int)⟩).2 ≤ 6 :=
  c10_day_phrase_unreachable.2.1 ⟨false, ((3 * nsPerDay : Nat) : Int)⟩
    (by decide)

end Elapsed
